import Mathlib

/-!
Verification of the ClaudioScribe processing pipeline against its
natural-language specification.  The Python sources (`pipeline.py`,
`app/app.py`, `doc_writer.py`) are shallowly embedded: pure string
manipulation becomes functions on `List Char` / `String`, the stage
runner becomes a function from an environment of external outcomes to
the trace of statuses it writes, and fallible external calls are
modelled with `Except`.
-/

/-- Strip characters satisfying `p` from both ends of a list, i.e.
Python's `str.strip` / `str.strip(chars)`. -/
def stripSet (p : Char → Bool) (l : List Char) : List Char :=
  ((l.dropWhile p).reverse.dropWhile p).reverse

/-- An exception raised while reading and parsing a state file with
`json.load`: a `json.JSONDecodeError`, an `OSError`, or any other
exception type — e.g. `RecursionError` on deeply nested content, or
`UnicodeDecodeError` when the text-mode read hits non-UTF-8 bytes. -/
inductive LoadError where
  | jsonDecode (msg : String)
  | osError (msg : String)
  | other (excName msg : String)
deriving DecidableEq

/-- The `except (json.JSONDecodeError, OSError)` clause shared by
`pipeline.load_pipeline_status` and `app._load_history`: exactly these
two exception kinds are caught; every other kind escapes the clause. -/
def caughtByLoader : LoadError → Bool
  | .jsonDecode _ => true
  | .osError _ => true
  | .other _ _ => false

/-! ## doc_writer.py: filename sanitisation -/

namespace DocWriter

/-- The characters removed by `re.sub(r'[<>:"/\\|?*]', "", title)` in
`doc_writer._sanitize_filename`. -/
def docBadChars : List Char := ['<', '>', ':', '"', '/', '\\', '|', '?', '*']

/-- Characters stripped by `.strip(". ")` in `doc_writer._sanitize_filename`. -/
def dotSpace (c : Char) : Bool := c = '.' || c = ' '

/-- `doc_writer._sanitize_filename`: remove the unsafe characters, strip
leading/trailing dots and spaces, truncate to 200 characters, and fall
back to `"untitled"` when the result is empty. -/
def sanitize_filename (title : List Char) : List Char :=
  if stripSet dotSpace (title.filter fun c => decide (c ∉ docBadChars)) = [] then
    "untitled".toList
  else
    (stripSet dotSpace (title.filter fun c => decide (c ∉ docBadChars))).take 200

end DocWriter

/-! ## app/app.py: bounded history store -/

namespace WebApp

/-- `MAX_HISTORY` in `app/app.py`. -/
def MAX_HISTORY : Nat := 50

/-- One history record as written by `add_history_entry`. -/
structure HistoryEntry where
  filename : String
  status : String
  message : String
  timestamp : Nat
deriving DecidableEq

/-- `add_history_entry`: load the persisted history, insert the new
entry at index 0, truncate to `MAX_HISTORY`, and persist the result.
The stored list is the state; the write is modelled by returning the
new list. -/
def add_history_entry (stored : List HistoryEntry) (e : HistoryEntry) :
    List HistoryEntry :=
  (e :: stored).take MAX_HISTORY

end WebApp

/-! ## pipeline.py: status store -/

namespace Pipeline

/-- One entry of the pipeline status file, as written by
`set_pipeline_status`: a `status`, a `filename` and an `updated`
timestamp (modelled as a `Nat`). -/
structure StatusEntry where
  status : String
  filename : String
  updated : Nat
deriving DecidableEq

/-- `_ACTIVE_STATUSES` in `pipeline.py`. -/
def ACTIVE_STATUSES : List String :=
  ["queued", "downloading", "uploading_recording", "transcribing", "analyzing"]

/-- `load_pipeline_status`: the status file is `none` when missing
(`os.path.exists` fails); `parse` abstracts `json.load` on the file's
content, with any exception it raises as the `.error` case.  A missing
file returns the empty store, a `json.JSONDecodeError` or `OSError` is
caught by the `except` clause and also returns the empty store, and
every other exception kind escapes the clause and propagates to the
caller (the `.error` result). -/
def load_pipeline_status
    (parse : String → Except LoadError (List (String × StatusEntry)))
    (file : Option String) : Except LoadError (List (String × StatusEntry)) :=
  match file with
  | none => .ok []
  | some content =>
    match parse content with
    | .ok v => .ok v
    | .error e => if caughtByLoader e then .ok [] else .error e

/-- `reset_stale_statuses`: every entry whose status is active is
rewritten in place to `error` with a fresh `updated` timestamp; all
other entries are left untouched. -/
def reset_stale_statuses (now : Nat) (store : List (String × StatusEntry)) :
    List (String × StatusEntry) :=
  store.map fun kv =>
    if kv.2.status ∈ ACTIVE_STATUSES then
      (kv.1, StatusEntry.mk "error" kv.2.filename now)
    else kv

/-- `set_pipeline_status`: start from the existing entry (or an empty
one), set `status` and `updated`, set `filename` only when non-empty,
and write the entry back under `file_id` (replace if present, append
otherwise — Python dict assignment). -/
def set_pipeline_status (store : List (String × StatusEntry))
    (file_id status filename : String) (now : Nat) :
    List (String × StatusEntry) :=
  let e0 := (store.lookup file_id).getD (StatusEntry.mk "" "" 0)
  let e1 := StatusEntry.mk status
    (if filename = "" then e0.filename else filename) now
  if (store.lookup file_id).isSome then
    store.map fun kv => if kv.1 = file_id then (file_id, e1) else kv
  else
    store ++ [(file_id, e1)]

/-- `pipeline_status.get(file_id, {}).get("status", "new")` in
`app.process_recording`. -/
def currentStatus (store : List (String × StatusEntry)) (file_id : String) :
    String :=
  ((store.lookup file_id).map StatusEntry.status).getD "new"

/-- The three response shapes of the `/process/<file_id>` endpoint that
matter up to the point where the background thread is started. -/
inductive TriggerResponse where
  | busy (msg : String)
  | noToken (msg : String)
  | accepted
deriving DecidableEq

/-- HTTP status code attached to each response shape in
`app.process_recording`. -/
def httpCode : TriggerResponse → Nat
  | .busy _ => 409
  | .noToken _ => 400
  | .accepted => 200

/-- `app.process_recording` up to starting the worker thread: reject
with 409 when the recording is already active or when the single-flight
lock is held, reject with 400 when no token is configured, otherwise
write `queued` and accept.  Returns the response and the resulting
status store. -/
def process_recording (store : List (String × StatusEntry))
    (lockHeld hasToken : Bool) (file_id raw_filename : String) (now : Nat) :
    TriggerResponse × List (String × StatusEntry) :=
  if currentStatus store file_id ∉ (["new", "error", "processed"] : List String) then
    (.busy "Already processing", store)
  else if lockHeld then
    (.busy "Another recording is being processed. Please wait.", store)
  else if ¬ hasToken then
    (.noToken "No Plaud token configured", store)
  else
    (.accepted, set_pipeline_status store file_id "queued" raw_filename now)

end Pipeline

namespace WebApp

/-- `_load_history`: same structure as `load_pipeline_status` — a
missing file yields the empty list, a `json.JSONDecodeError` or
`OSError` from `json.load` is caught and yields the empty list, and
any other exception kind propagates to the caller. -/
def load_history (parse : String → Except LoadError (List HistoryEntry))
    (file : Option String) : Except LoadError (List HistoryEntry) :=
  match file with
  | none => .ok []
  | some content =>
    match parse content with
    | .ok v => .ok v
    | .error e => if caughtByLoader e then .ok [] else .error e

end WebApp

/-! ## pipeline.py: safe local filenames -/

namespace Pipeline

/-- The character set kept by `pipeline._sanitize_filename`
(`"abc...xyzABC...XYZ0123456789-_. "`). -/
def keepChars : List Char :=
  "abcdefghijklmnopqrstuvwxyzABCDEFGHIJKLMNOPQRSTUVWXYZ0123456789-_. ".toList

/-- The ASCII whitespace stripped by Python's `str.strip()`. -/
def pyWhitespace (c : Char) : Bool :=
  decide (c ∈ [' ', '\t', '\n', '\r', '\x0b', '\x0c'])

/-- `pipeline._sanitize_filename`: keep only safe characters, strip
surrounding whitespace, and fall back to `"recording"` when empty. -/
def sanitize_filename (name : List Char) : List Char :=
  if stripSet pyWhitespace (name.filter fun c => decide (c ∈ keepChars)) = [] then
    "recording".toList
  else
    stripSet pyWhitespace (name.filter fun c => decide (c ∈ keepChars))

/-- The recognized audio extensions
(`(".mp3", ".ogg", ".m4a", ".wav", ".flac")`). -/
def audioExts : List String := [".mp3", ".ogg", ".m4a", ".wav", ".flac"]

/-- `name.lower().endswith(audioExts)`.  `Char.toLower` models
`str.lower` (they agree on ASCII, which covers the extension check). -/
def hasAudioExt (l : List Char) : Bool :=
  audioExts.any fun e => e.toList.isSuffixOf (l.map Char.toLower)

/-- The safe local filename built at the top of
`process_plaud_recording`: append `".mp3"` when no recognized extension
is present, then sanitize. -/
def pipelineSafeName (raw : List Char) : List Char :=
  sanitize_filename (if hasAudioExt raw then raw else raw ++ ".mp3".toList)

/-- The safe local filename computed by the web layer
(`recordings_list`, `delete_recording_audio`,
`delete_recording_documents` in `app/app.py`): sanitize first, then
append `".mp3"` when no recognized extension is present. -/
def webSafeName (raw : List Char) : List Char :=
  if hasAudioExt (sanitize_filename raw) then sanitize_filename raw
  else sanitize_filename raw ++ ".mp3".toList

end Pipeline

/-! ## pipeline.py: tool-use loop (`create_document_via_claude`) -/

namespace Pipeline

/-- `MAX_TITLE_LENGTH` in `pipeline.py`. -/
def MAX_TITLE_LENGTH : Nat := 200

/-- The `stop_reason` of one LLM response. -/
inductive StopReason where
  | endTurn
  | toolUse
  | other (s : String)
deriving DecidableEq

/-- One `tool_use` content block of an LLM response, dispatched by name
in `handle_tool_call`. -/
inductive ToolCall where
  | createDocument (title content : String)
  | listDocuments
  | unknownTool (name : String)
deriving DecidableEq

/-- One LLM response: a stop reason plus its `tool_use` blocks. -/
structure LLMResponse where
  stop : StopReason
  blocks : List ToolCall
deriving DecidableEq

/-- The documents created by `handle_tool_call` while executing the
`tool_use` blocks of one response; `create_document` truncates the
title to `MAX_TITLE_LENGTH`; the other tools create nothing. -/
def createdDocs (blocks : List ToolCall) : List (String × String) :=
  blocks.filterMap fun b =>
    match b with
    | .createDocument t c => some (t.take MAX_TITLE_LENGTH, c)
    | _ => none

/-- The `while True` loop of `create_document_via_claude`, driven by a
script of successive LLM responses: `end_turn` ends the loop
successfully with the documents created so far, `tool_use` executes the
requested tools and continues, and any other stop reason raises
`RuntimeError`.  The real API call always yields a response, so an
exhausted script is also modelled as a raised error. -/
def runToolLoop : List LLMResponse → List (String × String) →
    Except String (List (String × String))
  | [], _ => .error "no response"
  | r :: rest, docs =>
    match r.stop with
    | .endTurn => .ok docs
    | .toolUse => runToolLoop rest (docs ++ createdDocs r.blocks)
    | .other s =>
      .error ("Claude failed: stop_reason=" ++ s ++ " (no document created)")

/-- `create_document_via_claude`: raises when no API key is configured,
otherwise runs the tool-use loop starting from an empty document list.
Returns the documents created during the conversation. -/
def create_document_via_claude (hasApiKey : Bool)
    (script : List LLMResponse) : Except String (List (String × String)) :=
  if hasApiKey then runToolLoop script []
  else .error "Anthropic API key not configured"

end Pipeline

/-! ## pipeline.py: the stage runner (`process_plaud_recording`) -/

namespace Pipeline

/-- The outcomes of the external calls made during one run of
`process_plaud_recording`.  `.error` means the call raised. -/
structure PipelineEnv where
  /-- `plaud_client.download_recording`: raised, or returned a Bool. -/
  download : Except String Bool
  /-- cloud mirror of the raw recording (`_upload_to_gdrive`). -/
  uploadRecording : Except String Unit
  /-- content of an existing transcript file for this base name, if any
  (`_find_existing_transcript`). -/
  existingTranscript : Option String
  /-- reading the cached transcript file. -/
  readCached : Except String Unit
  /-- `transcribe_audio` followed by writing the transcript file:
  raised, or produced the transcript text. -/
  transcribeResult : Except String String
  /-- cloud mirror of the fresh transcript (`_upload_to_gdrive`). -/
  uploadTranscript : Except String Unit
  /-- `create_document_via_claude`. -/
  claudeResult : Except String Unit
  /-- `archive_audio` (`os.rename`). -/
  archiveResult : Except String Unit

/-- `_upload_to_gdrive`: the whole body sits inside `try/except
Exception`, so the caller observes no difference between success and
failure. -/
def uploadToGdrive : Except String Unit → Unit
  | .ok _ => ()
  | .error _ => ()

/-- What one run of `process_plaud_recording` did: the statuses written
to the Status Store in order, whether `transcribe_audio` was called,
and the transcript text handed to the analyzing stage (if reached). -/
structure RunResult where
  trace : List String
  transcribeCalled : Bool
  transcriptUsed : Option String
deriving DecidableEq

/-- Steps 4–6 of `process_plaud_recording`: write `analyzing`, run the
Claude stage, archive the audio, and write the terminal status.  Any
exception is caught by the surrounding handler, which writes `error`. -/
def finishRun (t : List String) (engine : Bool) (tr : Option String)
    (env : PipelineEnv) : RunResult :=
  match env.claudeResult with
  | .error _ => RunResult.mk (t ++ ["analyzing", "error"]) engine tr
  | .ok _ =>
    match env.archiveResult with
    | .error _ => RunResult.mk (t ++ ["analyzing", "error"]) engine tr
    | .ok _ => RunResult.mk (t ++ ["analyzing", "processed"]) engine tr

/-- `process_plaud_recording`: download, best-effort recording upload,
transcription (skipped when a cached transcript exists), Claude
analysis, archive.  Every status write of the Python function appears
in `trace` in order; the `try/except` around the whole body turns any
raise into a final `error` write. -/
def process_plaud_recording (env : PipelineEnv) : RunResult :=
  match env.download with
  | .error _ => RunResult.mk ["downloading", "error"] false none
  | .ok false => RunResult.mk ["downloading", "error"] false none
  | .ok true =>
    let _ := uploadToGdrive env.uploadRecording
    match env.existingTranscript with
    | some cached =>
      match env.readCached with
      | .error _ =>
        RunResult.mk ["downloading", "uploading_recording", "error"] false none
      | .ok _ =>
        finishRun ["downloading", "uploading_recording"] false (some cached) env
    | none =>
      match env.transcribeResult with
      | .error _ =>
        RunResult.mk
          ["downloading", "uploading_recording", "transcribing", "error"]
          true none
      | .ok tr =>
        let _ := uploadToGdrive env.uploadTranscript
        finishRun ["downloading", "uploading_recording", "transcribing"]
          true (some tr) env

/-- The statuses written during one triggered run: the endpoint writes
`queued` before starting the worker thread, which then runs
`process_plaud_recording`. -/
def fullRunTrace (env : PipelineEnv) : List String :=
  "queued" :: (process_plaud_recording env).trace

/-- Position of a status in the forward chain; `error` sits after every
non-terminal status. -/
def statusRank (s : String) : Nat :=
  if s = "queued" then 0
  else if s = "downloading" then 1
  else if s = "uploading_recording" then 2
  else if s = "transcribing" then 3
  else if s = "analyzing" then 4
  else if s = "processed" then 5
  else if s = "error" then 6
  else 7

/-- The last status written by a run. -/
def finalStatus (r : RunResult) : String := r.trace.getLast?.getD ""

/-- A pipeline environment whose Claude stage is driven by
`create_document_via_claude` on a given script of LLM responses. -/
def pipelineEnvWithScript (env : PipelineEnv) (hasApiKey : Bool)
    (script : List LLMResponse) : PipelineEnv :=
  { env with claudeResult :=
      (create_document_via_claude hasApiKey script).map fun _ => () }

/-- The seven status sequences `process_plaud_recording` can write,
one per combination of external outcomes. -/
def possibleTraces : List (List String) :=
  [["downloading", "error"],
   ["downloading", "uploading_recording", "error"],
   ["downloading", "uploading_recording", "analyzing", "error"],
   ["downloading", "uploading_recording", "analyzing", "processed"],
   ["downloading", "uploading_recording", "transcribing", "error"],
   ["downloading", "uploading_recording", "transcribing", "analyzing", "error"],
   ["downloading", "uploading_recording", "transcribing", "analyzing",
    "processed"]]

end Pipeline

/-! ## Helper lemmas on lists -/

theorem mem_of_mem_dropWhile {p : Char → Bool} {l : List Char} {a : Char}
    (h : a ∈ l.dropWhile p) : a ∈ l := by
  induction l with
  | nil => simp at h
  | cons b t ih =>
    rw [List.dropWhile_cons] at h
    by_cases hb : p b = true
    · simp only [hb, if_pos rfl] at h
      exact List.mem_cons_of_mem _ (ih h)
    · rw [if_neg hb] at h
      exact h

theorem mem_of_mem_stripSet {p : Char → Bool} {l : List Char} {a : Char}
    (h : a ∈ stripSet p l) : a ∈ l := by
  unfold stripSet at h
  rw [List.mem_reverse] at h
  have h' := mem_of_mem_dropWhile h
  rw [List.mem_reverse] at h'
  exact mem_of_mem_dropWhile h'

theorem dropWhile_eq_nil_of_all {p : Char → Bool} {l : List Char}
    (h : ∀ c ∈ l, p c = true) : l.dropWhile p = [] := by
  induction l with
  | nil => rfl
  | cons b t ih =>
    rw [List.dropWhile_cons]
    have hb := h b (by simp)
    simp only [hb, if_pos rfl]
    exact ih fun c hc => h c (by simp [hc])

theorem stripSet_eq_nil_of_all {p : Char → Bool} {l : List Char}
    (h : ∀ c ∈ l, p c = true) : stripSet p l = [] := by
  unfold stripSet
  rw [dropWhile_eq_nil_of_all h]
  simp

theorem take_append_take {α : Type} (n : Nat) (l m : List α) :
    (l ++ m.take n).take n = (l ++ m).take n := by
  rw [List.take_append_eq_append_take, List.take_append_eq_append_take,
    List.take_take, Nat.min_eq_left (Nat.sub_le n _)]

/-! ## C9, C10 theorems -/

/-- C9: for every title, the document filename sanitizer returns a string
containing none of the characters `< > : " / \ | ? *`, of length at most
200, and non-empty; a title consisting entirely of stripped characters
and dots/spaces yields the fallback name `"untitled"`. -/
theorem sanitize_filename_safe (title : List Char) :
    (∀ c ∈ DocWriter.sanitize_filename title, c ∉ DocWriter.docBadChars) ∧
    (DocWriter.sanitize_filename title).length ≤ 200 ∧
    DocWriter.sanitize_filename title ≠ [] ∧
    ((∀ c ∈ title, c ∈ DocWriter.docBadChars ∨ c = '.' ∨ c = ' ') →
      DocWriter.sanitize_filename title = "untitled".toList) := by
  unfold DocWriter.sanitize_filename
  by_cases hempty :
      stripSet DocWriter.dotSpace
        (title.filter fun c => decide (c ∉ DocWriter.docBadChars)) = []
  · refine ⟨?_, ?_, ?_, ?_⟩
    · intro c hc
      rw [if_pos hempty] at hc
      have hall : ∀ d ∈ "untitled".toList, d ∉ DocWriter.docBadChars := by decide
      exact hall c hc
    · rw [if_pos hempty]
      decide
    · rw [if_pos hempty]
      decide
    · intro _
      rw [if_pos hempty]
  · refine ⟨?_, ?_, ?_, ?_⟩
    · intro c hc
      rw [if_neg hempty] at hc
      have h1 : c ∈ stripSet DocWriter.dotSpace
          (title.filter fun c => decide (c ∉ DocWriter.docBadChars)) :=
        List.take_subset _ _ hc
      have h2 := mem_of_mem_stripSet h1
      rw [List.mem_filter] at h2
      simpa using h2.2
    · rw [if_neg hempty, List.length_take]
      exact Nat.min_le_left _ _
    · rw [if_neg hempty]
      intro htake
      rcases List.take_eq_nil_iff.mp htake with h | h
      all_goals first
        | exact hempty h
        | exact absurd h (by decide)
    · intro hall
      exfalso
      apply hempty
      apply stripSet_eq_nil_of_all
      intro c hc
      rw [List.mem_filter] at hc
      rcases hall c hc.1 with hb | hd
      · exact absurd hb (by simpa using hc.2)
      · unfold DocWriter.dotSpace
        rcases hd with h | h <;> simp [h]

/-- Witness for C9 at the concrete titles `"a/b:c"` and `"..??**.."`. -/
theorem sanitize_filename_safe_witness :
    DocWriter.sanitize_filename "a/b:c".toList = "abc".toList ∧
    DocWriter.sanitize_filename "..??**..".toList = "untitled".toList := by
  exact ⟨by decide, (sanitize_filename_safe "..??**..".toList).2.2.2 (by decide)⟩

theorem foldl_add_history (e : WebApp.HistoryEntry)
    (es : List WebApp.HistoryEntry) (h0 : List WebApp.HistoryEntry) :
    List.foldl WebApp.add_history_entry h0 (e :: es) =
      ((e :: es).reverse ++ h0).take WebApp.MAX_HISTORY := by
  induction es generalizing e h0 with
  | nil => simp [WebApp.add_history_entry]
  | cons e' t ih =>
    have step : List.foldl WebApp.add_history_entry h0 (e :: e' :: t) =
        List.foldl WebApp.add_history_entry
          ((e :: h0).take WebApp.MAX_HISTORY) (e' :: t) := rfl
    rw [step, ih]
    have hre : (e :: e' :: t).reverse ++ h0 = (e' :: t).reverse ++ (e :: h0) := by
      simp
    rw [hre, take_append_take]

/-- C10: for every persisted history (including one already over the
bound) and every nonempty sequence of `add_history_entry` calls, each
call puts the newest entry at index 0, the stored list after the calls
is the newest-first prefix of length at most `MAX_HISTORY` of all
entries, and once at least `MAX_HISTORY` entries have been inserted the
store holds exactly `MAX_HISTORY` of them, newest first, the oldest
evicted. -/
theorem add_history_entry_bounded (h0 : List WebApp.HistoryEntry)
    (e : WebApp.HistoryEntry) (es : List WebApp.HistoryEntry) :
    (WebApp.add_history_entry h0 e).head? = some e ∧
    List.foldl WebApp.add_history_entry h0 (e :: es) =
      ((e :: es).reverse ++ h0).take WebApp.MAX_HISTORY ∧
    (List.foldl WebApp.add_history_entry h0 (e :: es)).length ≤
      WebApp.MAX_HISTORY ∧
    (WebApp.MAX_HISTORY ≤ (e :: es).length →
      (List.foldl WebApp.add_history_entry h0 (e :: es)).length =
        WebApp.MAX_HISTORY ∧
      List.foldl WebApp.add_history_entry h0 (e :: es) =
        (e :: es).reverse.take WebApp.MAX_HISTORY) := by
  refine ⟨?_, foldl_add_history e es h0, ?_, ?_⟩
  · rfl
  · rw [foldl_add_history, List.length_take]
    exact Nat.min_le_left _ _
  · intro hlen
    have hlen' : WebApp.MAX_HISTORY ≤ (e :: es).reverse.length := by
      rw [List.length_reverse]; exact hlen
    constructor
    · rw [foldl_add_history, List.length_take, List.length_append]
      have := Nat.le_trans hlen' (Nat.le_add_right _ h0.length)
      omega
    · rw [foldl_add_history, List.take_append_of_le_length hlen']

/-- Witness for C10: 51 inserted entries into an empty store leave
exactly 50, newest first. -/
theorem add_history_entry_bounded_witness :
    (List.foldl WebApp.add_history_entry []
      (WebApp.HistoryEntry.mk "f" "s" "m" 0 ::
        List.replicate 50 (WebApp.HistoryEntry.mk "g" "t" "n" 1))).length =
      WebApp.MAX_HISTORY := by
  exact ((add_history_entry_bounded [] (WebApp.HistoryEntry.mk "f" "s" "m" 0)
    (List.replicate 50 (WebApp.HistoryEntry.mk "g" "t" "n" 1))).2.2.2
      (by simp [WebApp.MAX_HISTORY])).1

/-! ## C3, C6, C8 theorems -/

/-- C3: startup recovery rewrites every active entry to `error`
(keeping its key and filename, refreshing `updated`) and leaves every
other entry — in particular every terminal `processed`/`error` entry —
exactly unchanged. -/
theorem reset_stale_statuses_spec (now : Nat)
    (store : List (String × Pipeline.StatusEntry)) (i : Nat)
    (h : i < store.length) :
    ((Pipeline.reset_stale_statuses now store).get
        ⟨i, by simpa [Pipeline.reset_stale_statuses] using h⟩).1 =
      (store.get ⟨i, h⟩).1 ∧
    ((store.get ⟨i, h⟩).2.status ∈ Pipeline.ACTIVE_STATUSES →
      ((Pipeline.reset_stale_statuses now store).get
          ⟨i, by simpa [Pipeline.reset_stale_statuses] using h⟩).2 =
        Pipeline.StatusEntry.mk "error" (store.get ⟨i, h⟩).2.filename now) ∧
    ((store.get ⟨i, h⟩).2.status ∉ Pipeline.ACTIVE_STATUSES →
      (Pipeline.reset_stale_statuses now store).get
          ⟨i, by simpa [Pipeline.reset_stale_statuses] using h⟩ =
        store.get ⟨i, h⟩) := by
  unfold Pipeline.reset_stale_statuses
  simp only [List.get_eq_getElem, List.getElem_map]
  by_cases hs : (store[i]).2.status ∈ Pipeline.ACTIVE_STATUSES
  · simp [hs]
  · simp [hs]

/-- Witness for C3: a store holding a `transcribing` entry and a
`processed` entry; recovery sends the first to `error` and leaves the
second untouched. -/
theorem reset_stale_statuses_spec_witness :
    ((Pipeline.reset_stale_statuses 99
        [("a", Pipeline.StatusEntry.mk "transcribing" "fa" 10),
         ("b", Pipeline.StatusEntry.mk "processed" "fb" 11)]).get
      ⟨0, by decide⟩).2 = Pipeline.StatusEntry.mk "error" "fa" 99 ∧
    (Pipeline.reset_stale_statuses 99
        [("a", Pipeline.StatusEntry.mk "transcribing" "fa" 10),
         ("b", Pipeline.StatusEntry.mk "processed" "fb" 11)]).get
      ⟨1, by decide⟩ = ("b", Pipeline.StatusEntry.mk "processed" "fb" 11) := by
  exact ⟨(reset_stale_statuses_spec 99
      [("a", Pipeline.StatusEntry.mk "transcribing" "fa" 10),
       ("b", Pipeline.StatusEntry.mk "processed" "fb" 11)] 0
      (by decide)).2.1 (by decide),
    (reset_stale_statuses_spec 99
      [("a", Pipeline.StatusEntry.mk "transcribing" "fa" 10),
       ("b", Pipeline.StatusEntry.mk "processed" "fb" 11)] 1
      (by decide)).2.2 (by decide)⟩

/-- C6: a trigger for a recording in an active status, or while the
single-flight lock is held, is rejected with HTTP 409 and leaves the
status store unchanged. -/
theorem process_recording_busy (store : List (String × Pipeline.StatusEntry))
    (lockHeld hasToken : Bool) (fid raw : String) (now : Nat)
    (h : Pipeline.currentStatus store fid ∉
        (["new", "error", "processed"] : List String) ∨ lockHeld = true) :
    Pipeline.httpCode
      (Pipeline.process_recording store lockHeld hasToken fid raw now).1 = 409 ∧
    (Pipeline.process_recording store lockHeld hasToken fid raw now).2 = store := by
  unfold Pipeline.process_recording
  rcases h with h | h
  · simp [h, Pipeline.httpCode]
  · subst h
    by_cases h2 : Pipeline.currentStatus store fid ∈
        (["new", "error", "processed"] : List String)
    · simp [h2, Pipeline.httpCode]
    · simp [h2, Pipeline.httpCode]

/-- Witness for C6: a store whose only entry is `transcribing` rejects a
trigger even with the lock free, and an idle store rejects when the lock
is held; neither changes the store. -/
theorem process_recording_busy_witness :
    (Pipeline.httpCode
      (Pipeline.process_recording
        [("x", Pipeline.StatusEntry.mk "transcribing" "f" 0)]
        false true "x" "r" 5).1 = 409 ∧
     (Pipeline.process_recording
        [("x", Pipeline.StatusEntry.mk "transcribing" "f" 0)]
        false true "x" "r" 5).2 =
      [("x", Pipeline.StatusEntry.mk "transcribing" "f" 0)]) ∧
    (Pipeline.httpCode
      (Pipeline.process_recording [] true true "y" "r" 5).1 = 409 ∧
     (Pipeline.process_recording [] true true "y" "r" 5).2 = []) := by
  exact ⟨process_recording_busy
      [("x", Pipeline.StatusEntry.mk "transcribing" "f" 0)]
      false true "x" "r" 5 (Or.inl (by decide)),
    process_recording_busy [] true true "y" "r" 5 (Or.inr rfl)⟩

/-- Counterexample for C8: file content on which `json.load` raises an
exception outside the caught `(json.JSONDecodeError, OSError)` tuple —
`RecursionError` on deeply nested JSON, `UnicodeDecodeError` on
non-UTF-8 bytes — is not recovered to the empty store: both loaders
propagate the error to the caller instead of returning empty. -/
theorem load_uncaught_error_propagates_cex :
    Pipeline.load_pipeline_status
      (fun _ => .error (LoadError.other "RecursionError"
        "maximum recursion depth exceeded while decoding a JSON object"))
      (some "[[[[[[[[[[") =
      .error (LoadError.other "RecursionError"
        "maximum recursion depth exceeded while decoding a JSON object") ∧
    Pipeline.load_pipeline_status
      (fun _ => .error (LoadError.other "RecursionError"
        "maximum recursion depth exceeded while decoding a JSON object"))
      (some "[[[[[[[[[[") ≠ .ok [] ∧
    WebApp.load_history
      (fun _ => .error (LoadError.other "UnicodeDecodeError"
        "invalid start byte"))
      (some "\xff\xfe") =
      .error (LoadError.other "UnicodeDecodeError" "invalid start byte") ∧
    WebApp.load_history
      (fun _ => .error (LoadError.other "UnicodeDecodeError"
        "invalid start byte"))
      (some "\xff\xfe") ≠ .ok [] := by
  exact ⟨rfl, fun h => Except.noConfusion h, rfl, fun h => Except.noConfusion h⟩

/-- C8 (amended): a missing file yields the empty store/list; content
whose parse fails with one of the caught exception kinds
(`json.JSONDecodeError`, `OSError`) is recovered to the empty
store/list; successfully parsed content is returned as-is; but a parse
failure of any other exception kind propagates to the caller of
`load_pipeline_status` / `_load_history`. -/
theorem load_recover_caught_errors
    (parseS : String → Except LoadError (List (String × Pipeline.StatusEntry)))
    (parseH : String → Except LoadError (List WebApp.HistoryEntry))
    (s : String) (e e2 : LoadError)
    (vs : List (String × Pipeline.StatusEntry))
    (vh : List WebApp.HistoryEntry) :
    Pipeline.load_pipeline_status parseS none = .ok [] ∧
    (parseS s = .error e → caughtByLoader e = true →
      Pipeline.load_pipeline_status parseS (some s) = .ok []) ∧
    (parseS s = .error e → caughtByLoader e = false →
      Pipeline.load_pipeline_status parseS (some s) = .error e) ∧
    (parseS s = .ok vs →
      Pipeline.load_pipeline_status parseS (some s) = .ok vs) ∧
    WebApp.load_history parseH none = .ok [] ∧
    (parseH s = .error e2 → caughtByLoader e2 = true →
      WebApp.load_history parseH (some s) = .ok []) ∧
    (parseH s = .error e2 → caughtByLoader e2 = false →
      WebApp.load_history parseH (some s) = .error e2) ∧
    (parseH s = .ok vh → WebApp.load_history parseH (some s) = .ok vh) := by
  refine ⟨rfl, ?_, ?_, ?_, rfl, ?_, ?_, ?_⟩
  · intro h h2
    simp [Pipeline.load_pipeline_status, h, h2]
  · intro h h2
    simp [Pipeline.load_pipeline_status, h, h2]
  · intro h
    simp [Pipeline.load_pipeline_status, h]
  · intro h h2
    simp [WebApp.load_history, h, h2]
  · intro h h2
    simp [WebApp.load_history, h, h2]
  · intro h
    simp [WebApp.load_history, h]

/-- Witness for C8 (amended): a `json.JSONDecodeError` and an `OSError`
are recovered to empty, while a `RecursionError` propagates. -/
theorem load_recover_caught_errors_witness :
    Pipeline.load_pipeline_status
      (fun _ => .error (LoadError.jsonDecode "Expecting value: line 1"))
      (some "not json") = .ok [] ∧
    Pipeline.load_pipeline_status
      (fun _ => .error (LoadError.other "RecursionError"
        "maximum recursion depth exceeded"))
      (some "nested") =
      .error (LoadError.other "RecursionError"
        "maximum recursion depth exceeded") ∧
    WebApp.load_history
      (fun _ => .error (LoadError.osError "read failed"))
      (some "x") = .ok [] := by
  exact ⟨(load_recover_caught_errors
      (fun _ => .error (LoadError.jsonDecode "Expecting value: line 1"))
      (fun _ => .ok []) "not json"
      (LoadError.jsonDecode "Expecting value: line 1")
      (LoadError.jsonDecode "") [] []).2.1 rfl rfl,
    (load_recover_caught_errors
      (fun _ => .error (LoadError.other "RecursionError"
        "maximum recursion depth exceeded"))
      (fun _ => .ok []) "nested"
      (LoadError.other "RecursionError" "maximum recursion depth exceeded")
      (LoadError.jsonDecode "") [] []).2.2.1 rfl rfl,
    (load_recover_caught_errors
      (fun _ => .ok []) (fun _ => .error (LoadError.osError "read failed"))
      "x" (LoadError.jsonDecode "") (LoadError.osError "read failed")
      [] []).2.2.2.2.2.1 rfl rfl⟩

/-! ## C2, C4, C5 theorems -/

/-- C2: in every triggered run the statuses written to the Status Store
are strictly increasing along the chain
`queued → downloading → uploading_recording → transcribing → analyzing
→ processed`, with `error` ranked after every non-terminal status: no
status is ever written that is not strictly later than every status
already written, no status is revisited, and every written status is
one of the seven known ones. -/
theorem status_writes_forward (env : Pipeline.PipelineEnv) :
    List.Pairwise (fun a b => Pipeline.statusRank a < Pipeline.statusRank b)
      (Pipeline.fullRunTrace env) ∧
    ∀ s ∈ Pipeline.fullRunTrace env,
      s ∈ ["queued", "downloading", "uploading_recording", "transcribing",
           "analyzing", "processed", "error"] := by
  have h : (Pipeline.process_plaud_recording env).trace ∈
      Pipeline.possibleTraces := by
    obtain ⟨dl, up, ex, rc, tr, ut, cl, ar⟩ := env
    rcases dl with e | b
    · exact (by decide :
        (["downloading", "error"] : List String) ∈ Pipeline.possibleTraces)
    cases b
    · exact (by decide :
        (["downloading", "error"] : List String) ∈ Pipeline.possibleTraces)
    rcases ex with _ | c
    · rcases tr with e2 | t
      · exact (by decide :
          (["downloading", "uploading_recording", "transcribing", "error"] :
            List String) ∈ Pipeline.possibleTraces)
      rcases cl with e3 | u
      · exact (by decide :
          (["downloading", "uploading_recording", "transcribing", "analyzing",
            "error"] : List String) ∈ Pipeline.possibleTraces)
      rcases ar with e4 | u2
      · exact (by decide :
          (["downloading", "uploading_recording", "transcribing", "analyzing",
            "error"] : List String) ∈ Pipeline.possibleTraces)
      · exact (by decide :
          (["downloading", "uploading_recording", "transcribing", "analyzing",
            "processed"] : List String) ∈ Pipeline.possibleTraces)
    · rcases rc with e5 | u
      · exact (by decide :
          (["downloading", "uploading_recording", "error"] : List String) ∈
            Pipeline.possibleTraces)
      rcases cl with e3 | u
      · exact (by decide :
          (["downloading", "uploading_recording", "analyzing", "error"] :
            List String) ∈ Pipeline.possibleTraces)
      rcases ar with e4 | u2
      · exact (by decide :
          (["downloading", "uploading_recording", "analyzing", "error"] :
            List String) ∈ Pipeline.possibleTraces)
      · exact (by decide :
          (["downloading", "uploading_recording", "analyzing", "processed"] :
            List String) ∈ Pipeline.possibleTraces)
  unfold Pipeline.fullRunTrace
  simp only [Pipeline.possibleTraces, List.mem_cons, List.not_mem_nil,
    or_false] at h
  rcases h with h | h | h | h | h | h | h <;> rw [h] <;>
    exact ⟨by decide, by decide⟩

/-- C4: when a cached transcript exists, the transcription engine is
never called, no `transcribing` status is written, and any transcript
handed to the analyzing stage is exactly the cached content. -/
theorem transcript_cache_reused (env : Pipeline.PipelineEnv) (c : String)
    (hc : env.existingTranscript = some c) :
    (Pipeline.process_plaud_recording env).transcribeCalled = false ∧
    "transcribing" ∉ (Pipeline.process_plaud_recording env).trace ∧
    (∀ t, (Pipeline.process_plaud_recording env).transcriptUsed = some t →
      t = c) := by
  obtain ⟨dl, up, ex, rc, tr, ut, cl, ar⟩ := env
  simp only at hc
  subst hc
  rcases dl with e | b
  · exact ⟨rfl,
      (by decide : "transcribing" ∉ (["downloading", "error"] : List String)),
      fun t ht => Option.noConfusion ht⟩
  cases b
  · exact ⟨rfl,
      (by decide : "transcribing" ∉ (["downloading", "error"] : List String)),
      fun t ht => Option.noConfusion ht⟩
  rcases rc with e5 | u
  · exact ⟨rfl,
      (by decide : "transcribing" ∉
        (["downloading", "uploading_recording", "error"] : List String)),
      fun t ht => Option.noConfusion ht⟩
  rcases cl with e3 | u2
  · exact ⟨rfl,
      (by decide : "transcribing" ∉
        (["downloading", "uploading_recording", "analyzing", "error"] :
          List String)),
      fun t ht => (Option.some.inj ht).symm⟩
  rcases ar with e4 | u3
  · exact ⟨rfl,
      (by decide : "transcribing" ∉
        (["downloading", "uploading_recording", "analyzing", "error"] :
          List String)),
      fun t ht => (Option.some.inj ht).symm⟩
  · exact ⟨rfl,
      (by decide : "transcribing" ∉
        (["downloading", "uploading_recording", "analyzing", "processed"] :
          List String)),
      fun t ht => (Option.some.inj ht).symm⟩

/-- Witness for C4 at a concrete environment holding a cached
transcript `"CACHED"`. -/
theorem transcript_cache_reused_witness :
    (Pipeline.process_plaud_recording
      (Pipeline.PipelineEnv.mk (.ok true) (.ok ()) (some "CACHED") (.ok ())
        (.ok "FRESH") (.ok ()) (.ok ()) (.ok ()))).transcribeCalled = false ∧
    "transcribing" ∉ (Pipeline.process_plaud_recording
      (Pipeline.PipelineEnv.mk (.ok true) (.ok ()) (some "CACHED") (.ok ())
        (.ok "FRESH") (.ok ()) (.ok ()) (.ok ()))).trace ∧
    (∀ t, (Pipeline.process_plaud_recording
      (Pipeline.PipelineEnv.mk (.ok true) (.ok ()) (some "CACHED") (.ok ())
        (.ok "FRESH") (.ok ()) (.ok ()) (.ok ()))).transcriptUsed = some t →
      t = "CACHED") := by
  exact transcript_cache_reused
    (Pipeline.PipelineEnv.mk (.ok true) (.ok ()) (some "CACHED") (.ok ())
      (.ok "FRESH") (.ok ()) (.ok ()) (.ok ())) "CACHED" rfl

/-- C5: a failure of the best-effort cloud mirror of the raw recording
never changes the run: the run is identical to the one where the upload
succeeds, and an otherwise-successful run still ends `processed`. -/
theorem upload_failure_swallowed (env : Pipeline.PipelineEnv)
    (o : Except String Unit)
    (hdl : env.download = .ok true)
    (hstage : (env.existingTranscript = none ∧
        ∃ t, env.transcribeResult = .ok t) ∨
      (∃ c, env.existingTranscript = some c ∧ env.readCached = .ok ()))
    (hcl : env.claudeResult = .ok ())
    (har : env.archiveResult = .ok ()) :
    Pipeline.process_plaud_recording { env with uploadRecording := o } =
      Pipeline.process_plaud_recording { env with uploadRecording := .ok () } ∧
    Pipeline.finalStatus
      (Pipeline.process_plaud_recording { env with uploadRecording := o }) =
      "processed" := by
  obtain ⟨dl, up, ex, rc, tr, ut, cl, ar⟩ := env
  simp only at hdl hstage hcl har
  subst hdl hcl har
  rcases hstage with ⟨hex, t, htr⟩ | ⟨c, hex, hrc⟩
  · subst hex htr
    exact ⟨rfl, rfl⟩
  · subst hex hrc
    exact ⟨rfl, rfl⟩

/-- Witness for C5: the all-successful environment with a failing
recording upload still ends `processed`. -/
theorem upload_failure_swallowed_witness :
    Pipeline.process_plaud_recording
      { Pipeline.PipelineEnv.mk (.ok true) (.ok ()) none (.ok ())
          (.ok "T") (.ok ()) (.ok ()) (.ok ()) with
        uploadRecording := .error "network down" } =
      Pipeline.process_plaud_recording
        { Pipeline.PipelineEnv.mk (.ok true) (.ok ()) none (.ok ())
            (.ok "T") (.ok ()) (.ok ()) (.ok ()) with
          uploadRecording := .ok () } ∧
    Pipeline.finalStatus (Pipeline.process_plaud_recording
      { Pipeline.PipelineEnv.mk (.ok true) (.ok ()) none (.ok ())
          (.ok "T") (.ok ()) (.ok ()) (.ok ()) with
        uploadRecording := .error "network down" }) = "processed" := by
  exact upload_failure_swallowed
    (Pipeline.PipelineEnv.mk (.ok true) (.ok ()) none (.ok ())
      (.ok "T") (.ok ()) (.ok ()) (.ok ()))
    (.error "network down") rfl (Or.inl ⟨rfl, "T", rfl⟩) rfl rfl

/-! ## C1 theorems: the tool-use loop and the analyzing stage -/

theorem runToolLoop_toolUse_prefix_other (pre : List Pipeline.LLMResponse)
    (hpre : ∀ r ∈ pre, r.stop = Pipeline.StopReason.toolUse)
    (s : String) (bs : List Pipeline.ToolCall)
    (docs : List (String × String)) :
    ∃ m, Pipeline.runToolLoop
      (pre ++ [Pipeline.LLMResponse.mk (.other s) bs]) docs = .error m := by
  induction pre generalizing docs with
  | nil => exact ⟨_, rfl⟩
  | cons r t ih =>
    obtain ⟨rs, rb⟩ := r
    have hr : rs = Pipeline.StopReason.toolUse := hpre ⟨rs, rb⟩ (by simp)
    subst hr
    exact ih (fun x hx => hpre x (List.mem_cons_of_mem _ hx)) _

theorem runToolLoop_toolUse_prefix_endTurn (pre : List Pipeline.LLMResponse)
    (hpre : ∀ r ∈ pre, r.stop = Pipeline.StopReason.toolUse)
    (bs : List Pipeline.ToolCall) (docs : List (String × String)) :
    ∃ d, Pipeline.runToolLoop
      (pre ++ [Pipeline.LLMResponse.mk .endTurn bs]) docs = .ok d := by
  induction pre generalizing docs with
  | nil => exact ⟨_, rfl⟩
  | cons r t ih =>
    obtain ⟨rs, rb⟩ := r
    have hr : rs = Pipeline.StopReason.toolUse := hpre ⟨rs, rb⟩ (by simp)
    subst hr
    exact ih (fun x hx => hpre x (List.mem_cons_of_mem _ hx)) _

/-- Counterexample for C1: a conversation that ends immediately with the
completion signal (`end_turn`) and never invokes `create_document`
makes `create_document_via_claude` return success, and the run ends
`processed`, not `error`. -/
theorem llm_decline_not_terminal_cex :
    Pipeline.createdDocs
      (Pipeline.LLMResponse.mk Pipeline.StopReason.endTurn []).blocks = [] ∧
    Pipeline.create_document_via_claude true
      [Pipeline.LLMResponse.mk Pipeline.StopReason.endTurn []] =
      Except.ok [] ∧
    Pipeline.finalStatus (Pipeline.process_plaud_recording
      (Pipeline.pipelineEnvWithScript
        (Pipeline.PipelineEnv.mk (.ok true) (.ok ()) (some "T") (.ok ())
          (.ok "F") (.ok ()) (.ok ()) (.ok ())) true
        [Pipeline.LLMResponse.mk Pipeline.StopReason.endTurn []])) =
      "processed" ∧
    ("processed" : String) ≠ "error" := by
  exact ⟨rfl, rfl, rfl, by decide⟩

/-- C1 (amended): if the tool-use conversation ends with a stop signal
that is neither the completion signal nor a tool-use request, then
`create_document_via_claude` raises and the run ends in `error`; by
contrast a conversation ending with the completion signal returns
success even when no document was created, and the run ends
`processed`. -/
theorem llm_protocol_error_terminal (env : Pipeline.PipelineEnv) (c : String)
    (pre : List Pipeline.LLMResponse) (s : String)
    (bs bs' : List Pipeline.ToolCall)
    (hpre : ∀ r ∈ pre, r.stop = Pipeline.StopReason.toolUse)
    (hdl : env.download = .ok true)
    (hex : env.existingTranscript = some c)
    (hrc : env.readCached = .ok ())
    (har : env.archiveResult = .ok ()) :
    Pipeline.finalStatus (Pipeline.process_plaud_recording
      (Pipeline.pipelineEnvWithScript env true
        (pre ++ [Pipeline.LLMResponse.mk (.other s) bs]))) = "error" ∧
    Pipeline.finalStatus (Pipeline.process_plaud_recording
      (Pipeline.pipelineEnvWithScript env true
        (pre ++ [Pipeline.LLMResponse.mk .endTurn bs']))) = "processed" := by
  obtain ⟨dl, up, ex, rc, tr, ut, cl, ar⟩ := env
  simp only at hdl hex hrc har
  subst hdl hex hrc har
  obtain ⟨m, hm⟩ := runToolLoop_toolUse_prefix_other pre hpre s bs []
  obtain ⟨d, hd⟩ := runToolLoop_toolUse_prefix_endTurn pre hpre bs' []
  constructor
  · simp [Pipeline.pipelineEnvWithScript, Pipeline.create_document_via_claude,
      Pipeline.process_plaud_recording, Pipeline.finishRun,
      Pipeline.finalStatus, Except.map, hm]
  · simp [Pipeline.pipelineEnvWithScript, Pipeline.create_document_via_claude,
      Pipeline.process_plaud_recording, Pipeline.finishRun,
      Pipeline.finalStatus, Except.map, hd]

/-- Witness for C1 (amended): one `tool_use` round that does create a
document, then a `max_tokens` stop, ends the run in `error`; the same
prefix followed by `end_turn` ends it `processed`. -/
theorem llm_protocol_error_terminal_witness :
    Pipeline.finalStatus (Pipeline.process_plaud_recording
      (Pipeline.pipelineEnvWithScript
        (Pipeline.PipelineEnv.mk (.ok true) (.ok ()) (some "T") (.ok ())
          (.ok "F") (.ok ()) (.ok ()) (.ok ())) true
        ([Pipeline.LLMResponse.mk Pipeline.StopReason.toolUse
            [Pipeline.ToolCall.createDocument "Notes" "# body"]] ++
          [Pipeline.LLMResponse.mk (.other "max_tokens") []]))) = "error" ∧
    Pipeline.finalStatus (Pipeline.process_plaud_recording
      (Pipeline.pipelineEnvWithScript
        (Pipeline.PipelineEnv.mk (.ok true) (.ok ()) (some "T") (.ok ())
          (.ok "F") (.ok ()) (.ok ()) (.ok ())) true
        ([Pipeline.LLMResponse.mk Pipeline.StopReason.toolUse
            [Pipeline.ToolCall.createDocument "Notes" "# body"]] ++
          [Pipeline.LLMResponse.mk .endTurn []]))) = "processed" := by
  exact llm_protocol_error_terminal
    (Pipeline.PipelineEnv.mk (.ok true) (.ok ()) (some "T") (.ok ())
      (.ok "F") (.ok ()) (.ok ()) (.ok ())) "T"
    [Pipeline.LLMResponse.mk Pipeline.StopReason.toolUse
      [Pipeline.ToolCall.createDocument "Notes" "# body"]]
    "max_tokens" [] []
    (by intro r hr; simp at hr; subst hr; rfl) rfl rfl rfl rfl

/-! ## C7 theorems: the two safe-filename computations -/

theorem dropWhile_eq_self_of_headD {p : Char → Bool} (l : List Char)
    (h : p (l.headD 'x') = false) : l.dropWhile p = l := by
  cases l with
  | nil => rfl
  | cons a t =>
    rw [List.headD_cons] at h
    exact List.dropWhile_cons_of_neg (by simp [h])

theorem stripSet_eq_self {p : Char → Bool} (l : List Char)
    (h1 : p (l.headD 'x') = false) (h2 : p (l.getLastD 'x') = false) :
    stripSet p l = l := by
  have h3 : p (l.reverse.headD 'x') = false := by
    rw [List.headD_eq_head?, List.head?_reverse, ← List.getLastD_eq_getLast?]
    exact h2
  unfold stripSet
  rw [dropWhile_eq_self_of_headD l h1, dropWhile_eq_self_of_headD l.reverse h3,
    List.reverse_reverse]

theorem sanitize_eq_self (raw : List Char)
    (hkeep : ∀ c ∈ raw, c ∈ Pipeline.keepChars)
    (hne : raw ≠ [])
    (hhead : Pipeline.pyWhitespace (raw.headD 'x') = false)
    (hlast : Pipeline.pyWhitespace (raw.getLastD 'x') = false) :
    Pipeline.sanitize_filename raw = raw := by
  have hf : raw.filter (fun c => decide (c ∈ Pipeline.keepChars)) = raw :=
    List.filter_eq_self.mpr fun a ha => by simpa using hkeep a ha
  unfold Pipeline.sanitize_filename
  rw [hf, stripSet_eq_self raw hhead hlast, if_neg hne]

/-- Counterexample for C7: for the provider filename `"a.mp3!"` the web
layer computes `"a.mp3"` (sanitize first, then the extension check
passes) while the pipeline computes `"a.mp3.mp3"` (the extension check
on the raw name fails, `".mp3"` is appended, then sanitizing removes
the `'!'`): the two computations are not equal as functions. -/
theorem safe_name_mismatch_cex :
    Pipeline.webSafeName "a.mp3!".toList ≠
      Pipeline.pipelineSafeName "a.mp3!".toList ∧
    Pipeline.webSafeName "a.mp3!".toList = "a.mp3".toList ∧
    Pipeline.pipelineSafeName "a.mp3!".toList = "a.mp3.mp3".toList := by
  decide

/-- C7 (amended): the web layer's safe filename (sanitize, then append
`".mp3"` when no recognized extension is present) and the pipeline's
safe filename (append, then sanitize) agree on every raw filename that
sanitization leaves unchanged — non-empty, made only of kept
characters, with no leading or trailing whitespace; on other raw
filenames the two computations can differ. -/
theorem safe_name_computations_agree (raw : List Char)
    (hkeep : ∀ c ∈ raw, c ∈ Pipeline.keepChars)
    (hne : raw ≠ [])
    (hhead : Pipeline.pyWhitespace (raw.headD 'x') = false)
    (hlast : Pipeline.pyWhitespace (raw.getLastD 'x') = false) :
    Pipeline.webSafeName raw = Pipeline.pipelineSafeName raw := by
  have hsan := sanitize_eq_self raw hkeep hne hhead hlast
  unfold Pipeline.webSafeName Pipeline.pipelineSafeName
  rw [hsan]
  by_cases hx : Pipeline.hasAudioExt raw = true
  · rw [if_pos hx]
    exact hsan.symm
  · rw [if_neg hx]
    have hkeep' : ∀ c ∈ raw ++ ".mp3".toList, c ∈ Pipeline.keepChars := by
      intro c hc
      rcases List.mem_append.mp hc with h | h
      · exact hkeep c h
      · have hm : ∀ c ∈ (".mp3".toList : List Char), c ∈ Pipeline.keepChars :=
          by decide
        exact hm c h
    have hne' : raw ++ ".mp3".toList ≠ [] := by
      intro h
      rcases List.append_eq_nil.mp h with ⟨h1, _⟩
      exact hne h1
    have hhead' :
        Pipeline.pyWhitespace ((raw ++ ".mp3".toList).headD 'x') = false := by
      obtain ⟨a, t, rfl⟩ := List.exists_cons_of_ne_nil hne
      simpa using hhead
    have hlast' :
        Pipeline.pyWhitespace ((raw ++ ".mp3".toList).getLastD 'x') = false := by
      rw [List.getLastD_eq_getLast?, List.getLast?_append]
      have h3 : (".mp3".toList : List Char).getLast? = some '3' := by decide
      rw [h3]
      exact (by decide : Pipeline.pyWhitespace '3' = false)
    exact (sanitize_eq_self (raw ++ ".mp3".toList) hkeep' hne' hhead' hlast').symm

/-- Witness for C7 (amended) at the raw filenames `"hello"` (no
extension) and `"talk.MP3"` (recognized extension). -/
theorem safe_name_computations_agree_witness :
    Pipeline.webSafeName "hello".toList =
      Pipeline.pipelineSafeName "hello".toList ∧
    Pipeline.webSafeName "talk.MP3".toList =
      Pipeline.pipelineSafeName "talk.MP3".toList := by
  exact ⟨safe_name_computations_agree "hello".toList
      (by decide) (by decide) (by decide) (by decide),
    safe_name_computations_agree "talk.MP3".toList
      (by decide) (by decide) (by decide) (by decide)⟩

/-- Witness for C2 at the all-successful environment: the written
statuses are exactly
`queued, downloading, uploading_recording, transcribing, analyzing,
processed`, strictly forward. -/
theorem status_writes_forward_witness :
    List.Pairwise (fun a b => Pipeline.statusRank a < Pipeline.statusRank b)
      (Pipeline.fullRunTrace
        (Pipeline.PipelineEnv.mk (.ok true) (.ok ()) none (.ok ())
          (.ok "T") (.ok ()) (.ok ()) (.ok ()))) ∧
    ∀ s ∈ Pipeline.fullRunTrace
        (Pipeline.PipelineEnv.mk (.ok true) (.ok ()) none (.ok ())
          (.ok "T") (.ok ()) (.ok ()) (.ok ())),
      s ∈ ["queued", "downloading", "uploading_recording", "transcribing",
           "analyzing", "processed", "error"] := by
  exact status_writes_forward
    (Pipeline.PipelineEnv.mk (.ok true) (.ok ()) none (.ok ())
      (.ok "T") (.ok ()) (.ok ()) (.ok ()))
